import Mathlib

/-!
Verification of the IIIF tile-grid computation of
`Resources/TestIIIFTiles.py` (orthanc-wsi).

The script fetches a IIIF `info.json` document, asserts a single tile
profile whose `scaleFactors` list has the same length as `sizes`, selects
the maximum-width entry of `sizes` as the full resolution, and then, for
every scale factor, enumerates the tile grid and issues one request per
tile, logging success or error per tile.

Python integers are arbitrary precision and are embedded as `ℤ`; Python
`//` is floor division (`Int.fdiv`) and `%` is floor modulus (`Int.fmod`).
Python 3 `/` on integers is true division returning a float; the values
arising here are embedded as exact rationals (exact as long as the IEEE
double arithmetic is exact, i.e. for dimensions below 2^53).
-/

namespace IIIFTiles

/-- A JSON number as Python sees it: an arbitrary-precision integer or a
float (embedded as an exact rational, see the file header). -/
inductive PyNum where
  | int (n : ℤ)
  | float (q : ℚ)
deriving DecidableEq, Repr

/-- Numeric value of a Python number, as used by Python comparison
operators such as the one of the maximum-width selection loop. -/
def PyNum.val : PyNum → ℚ
  | .int n => n
  | .float q => q

/-- Python isinstance(x, int). -/
def PyNum.isInt : PyNum → Bool
  | .int _ => true
  | .float _ => false

/-- The integer held by a PyNum known to be an int (0 for a float); used
only to restate runs whose isinstance asserts have passed. -/
def PyNum.intVal : PyNum → ℤ
  | .int n => n
  | .float _ => 0

/-- Truncation of a rational toward zero, which is what Python int() and
the %d format specifier do to a float. -/
def pyTrunc (q : ℚ) : ℤ :=
  q.num.tdiv (q.den : ℤ)

/-- Value emitted for a Python number by the %d format specifier of the
URL construction line: an int formats as itself, a float is truncated
toward zero. -/
def PyNum.formatD : PyNum → ℤ
  | .int n => n
  | .float q => pyTrunc q

/-- CeilingDivision from TestIIIFTiles.py (lines 34-38):
a // b if a % b == 0 else a // b + 1, with Python floor division and floor
modulus.  (Python raises ZeroDivisionError when b = 0; the caller on that
path is modelled explicitly in `processScales`.) -/
def CeilingDivision (a b : ℤ) : ℤ :=
  if Int.fmod a b = 0 then Int.fdiv a b else Int.fdiv a b + 1

/-- Grid size for one scale factor: the countTilesX / countTilesY
computation of lines 43-44 (spec operation ComputeGridSize). -/
def ComputeGridSize (width height tw th s : ℤ) : ℤ × ℤ :=
  (CeilingDivision width (tw * s), CeilingDivision height (th * s))

/-- Output size along one axis (the ws / hs computation of lines 63-69):
tw, unless the tile overhangs the image edge, in which case the script
computes (width - xr + s - 1) / s with Python TRUE division, so the
result is a float. -/
def ComputeOutputSize (width tw s xr : ℤ) : PyNum :=
  if xr + tw * s > width then
    .float (((width - xr + s - 1 : ℤ) : ℚ) / ((s : ℤ) : ℚ))
  else
    .int tw

/-- One tile request: the region (x, y, w, h) in full-resolution pixels
and the two size parameters ws / hs exactly as the Python variables hold
them (ints, or floats for clipped edge tiles). -/
structure TileRequest where
  x : ℤ
  y : ℤ
  w : ℤ
  h : ℤ
  ws : PyNum
  hs : PyNum
deriving DecidableEq, Repr

/-- The output width actually emitted in the URL: ws after %d
formatting. -/
def TileRequest.outW (t : TileRequest) : ℤ := t.ws.formatD

/-- The output height actually emitted in the URL: hs after %d
formatting. -/
def TileRequest.outH (t : TileRequest) : ℤ := t.hs.formatD

/-- Region and size computation for one tile (lines 54-69; spec operation
ComputeTileRequest).  n is the column, m the row. -/
def ComputeTileRequest (width height tw th s n m : ℤ) : TileRequest :=
  let xr := n * tw * s
  let yr := m * th * s
  let wr := if xr + tw * s > width then width - xr else tw * s
  let hr := if yr + th * s > height then height - yr else th * s
  ⟨xr, yr, wr, hr, ComputeOutputSize width tw s xr,
    ComputeOutputSize height th s yr⟩

/-- One entry of the sizes list of the info.json document. -/
structure SizeEntry where
  width : PyNum
  height : PyNum
deriving DecidableEq, Repr

/-- One entry of the tiles list of the info.json document. -/
structure TileProfile where
  width : PyNum
  height : PyNum
  scaleFactors : List PyNum
deriving DecidableEq, Repr

/-- The parts of the info.json document the script reads. -/
structure IIIFInfo where
  tiles : List TileProfile
  sizes : List SizeEntry
deriving DecidableEq, Repr

/-- One step of the maximum-width selection loop of lines 18-24:
take the entry when width is still None or when its width strictly
exceeds the current one. -/
def selectStep (acc : Option (PyNum × PyNum)) (size : SizeEntry) :
    Option (PyNum × PyNum) :=
  match acc with
  | none => some (size.width, size.height)
  | some wh =>
    if size.width.val > wh.1.val then some (size.width, size.height) else acc

/-- The maximum-width selection loop of lines 18-24, starting from
width = None. -/
def selectMaxWidth (sizes : List SizeEntry) : Option (PyNum × PyNum) :=
  sizes.foldl selectStep none

/-- Python range(c) for a possibly negative count: empty when c ≤ 0. -/
def intRange (c : ℤ) : List ℤ :=
  (List.range c.toNat).map (fun i => (i : ℤ))

/-- The tile enumeration of one scale (lines 47-52): rows outer, columns
inner (row-major order). -/
def EnumerateScaleTiles (width height tw th s : ℤ) : List TileRequest :=
  (intRange (ComputeGridSize width height tw th s).2).flatMap (fun m =>
    (intRange (ComputeGridSize width height tw th s).1).map (fun n =>
      ComputeTileRequest width height tw th s n m))

/-- Observable outcome of a run of the script after the info.json document
has been fetched.  grids records every (countTilesX, countTilesY) pair that
was fully computed, in order; log records every tile request issued
together with whether the server answered 200. -/
inductive ScriptResult where
  | assertFailed (grids : List (ℤ × ℤ)) (log : List (TileRequest × Bool))
  | zeroDivisionError (grids : List (ℤ × ℤ)) (log : List (TileRequest × Bool))
  | completed (grids : List (ℤ × ℤ)) (log : List (TileRequest × Bool))
deriving DecidableEq, Repr

/-- The per-scale loop of lines 43-77.  For each declared scale factor:
assert it is an int; compute the grid (Python raises ZeroDivisionError
inside CeilingDivision when the divisor tw*s or th*s is zero); then fetch
every tile of the grid, logging SUCCESS or ERROR per tile and never
aborting on a non-200 answer.  oracle abstracts the HTTP server: which
requests answer with status 200. -/
def processScales (width height tw th : ℤ) (oracle : TileRequest → Bool) :
    List PyNum → List (ℤ × ℤ) → List (TileRequest × Bool) → ScriptResult
  | [], grids, log => .completed grids log
  | sc :: rest, grids, log =>
    match sc with
    | .float _ => .assertFailed grids log
    | .int s =>
      if tw * s = 0 ∨ th * s = 0 then .zeroDivisionError grids log
      else
        processScales width height tw th oracle rest
          (grids ++ [ComputeGridSize width height tw th s])
          (log ++ (EnumerateScaleTiles width height tw th s).map
            (fun t => (t, oracle t)))

/-- The whole script after the info.json fetch (lines 15-77): assert a
single tile profile; assert len(scaleFactors) == len(sizes); run the
maximum-width selection; assert the four isinstance(..., int) checks on
the selected width and height and the tile width and height; then run the
scale loop.  An empty sizes list leaves width = None, so the
isinstance(width, int) assert fails. -/
def runScript (info : IIIFInfo) (oracle : TileRequest → Bool) : ScriptResult :=
  match info.tiles with
  | [profile] =>
    if profile.scaleFactors.length = info.sizes.length then
      match selectMaxWidth info.sizes, profile.width, profile.height with
      | some (.int width, .int height), .int tw, .int th =>
        processScales width height tw th oracle profile.scaleFactors [] []
      | _, _, _ => .assertFailed [] []
    else .assertFailed [] []
  | _ => .assertFailed [] []

/-- A tile address (column n, row m) lies inside the grid computed for the
given scale. -/
def ValidTile (width height tw th s n m : ℤ) : Prop :=
  0 ≤ n ∧ n < (ComputeGridSize width height tw th s).1 ∧
  0 ≤ m ∧ m < (ComputeGridSize width height tw th s).2

/-- The pixel (px, py) lies inside the region of the tile at
(column n, row m). -/
def InRegion (width height tw th s n m px py : ℤ) : Prop :=
  let t := ComputeTileRequest width height tw th s n m
  t.x ≤ px ∧ px < t.x + t.w ∧ t.y ≤ py ∧ py < t.y + t.h

instance (width height tw th s n m : ℤ) :
    Decidable (ValidTile width height tw th s n m) := by
  unfold ValidTile
  infer_instance

instance (width height tw th s n m px py : ℤ) :
    Decidable (InRegion width height tw th s n m px py) := by
  unfold InRegion
  infer_instance

/-! ### Arithmetic helper lemmas about CeilingDivision and pyTrunc -/

/-- For a positive divisor, the Python floor division and modulus of
CeilingDivision agree with euclidean division. -/
theorem ceilingDivision_eq_ediv (a : ℤ) {b : ℤ} (hb : 0 < b) :
    CeilingDivision a b = if a % b = 0 then a / b else a / b + 1 := by
  unfold CeilingDivision
  rw [Int.fmod_eq_emod a hb.le, Int.fdiv_eq_ediv a hb.le]

/-- CeilingDivision stated with divisibility and truncating division, the
rule the spec quotes, for non-negative dividends. -/
theorem ceilingDivision_eq_tdiv_rule {a b : ℤ} (ha : 0 ≤ a) (hb : 0 < b) :
    CeilingDivision a b = if b ∣ a then a.tdiv b else a.tdiv b + 1 := by
  by_cases hd : b ∣ a
  · rw [ceilingDivision_eq_ediv a hb, if_pos (Int.emod_eq_zero_of_dvd hd),
      if_pos hd, Int.tdiv_eq_ediv ha hb.le]
  · rw [ceilingDivision_eq_ediv a hb,
      if_neg (fun hc => hd (Int.dvd_of_emod_eq_zero hc)), if_neg hd,
      Int.tdiv_eq_ediv ha hb.le]

/-- The ceiling of W/T times T reaches at least W. -/
theorem le_ceilingDivision_mul {W T : ℤ} (hT : 0 < T) :
    W ≤ CeilingDivision W T * T := by
  rw [ceilingDivision_eq_ediv W hT]
  split_ifs with h
  · rw [Int.ediv_mul_cancel (Int.dvd_of_emod_eq_zero h)]
  · have h1 := Int.ediv_add_emod W T
    have h2 := Int.emod_lt_of_pos W hT
    have h3 : (W / T + 1) * T = T * (W / T) + T := by ring
    linarith

/-- One tile less than the ceiling does not reach W: the last tile always
has something left to cover. -/
theorem ceilingDivision_pred_mul_lt {W T : ℤ} (hW : 0 < W) (hT : 0 < T) :
    (CeilingDivision W T - 1) * T < W := by
  rw [ceilingDivision_eq_ediv W hT]
  have h1 := Int.ediv_add_emod W T
  have h2 := Int.emod_nonneg W (ne_of_gt hT)
  split_ifs with h
  · have h3 : (W / T - 1) * T = T * (W / T) - T := by ring
    linarith
  · have h5 : 0 < W % T := lt_of_le_of_ne h2 (Ne.symm h)
    have h3 : (W / T + 1 - 1) * T = T * (W / T) := by ring
    linarith

/-- A column index inside the grid starts strictly inside the image. -/
theorem mul_lt_of_lt_ceilingDivision {W T n : ℤ} (hW : 0 < W) (hT : 0 < T)
    (hn : n < CeilingDivision W T) : n * T < W := by
  have h1 : n ≤ CeilingDivision W T - 1 := by omega
  have h2 : n * T ≤ (CeilingDivision W T - 1) * T :=
    mul_le_mul_of_nonneg_right h1 hT.le
  exact lt_of_le_of_lt h2 (ceilingDivision_pred_mul_lt hW hT)

/-- A point determines its tile index: the euclidean quotient. -/
theorem eq_ediv_of_interval {T p n : ℤ} (hT : 0 < T)
    (h1 : n * T ≤ p) (h2 : p < n * T + T) : n = p / T := by
  have hd := Int.ediv_add_emod p T
  have r0 := Int.emod_nonneg p (ne_of_gt hT)
  have rT := Int.emod_lt_of_pos p hT
  have ha : n * T < (p / T + 1) * T := by
    have e : (p / T + 1) * T = T * (p / T) + T := by ring
    linarith
  have hb : p / T * T < (n + 1) * T := by
    have e1 : p / T * T = T * (p / T) := by ring
    have e2 : (n + 1) * T = n * T + T := by ring
    linarith
  have ha2 : n < p / T + 1 := lt_of_mul_lt_mul_right ha hT.le
  have hb2 : p / T < n + 1 := lt_of_mul_lt_mul_right hb hT.le
  omega

/-- The euclidean quotient places p inside its tile interval. -/
theorem ediv_mul_interval {T : ℤ} (hT : 0 < T) (p : ℤ) :
    p / T * T ≤ p ∧ p < p / T * T + T := by
  have hd := Int.ediv_add_emod p T
  have r0 := Int.emod_nonneg p (ne_of_gt hT)
  have rT := Int.emod_lt_of_pos p hT
  have e : p / T * T = T * (p / T) := by ring
  exact ⟨by linarith, by linarith⟩

/-- For a point inside the image, membership in a clipped tile interval is
the same as membership in the unclipped one. -/
theorem mem_clip_iff {W T p x : ℤ} (hpW : p < W) :
    (x ≤ p ∧ p < x + (if x + T > W then W - x else T)) ↔
      (x ≤ p ∧ p < x + T) := by
  split_ifs with h
  · constructor
    · rintro ⟨hxp, hpx⟩
      exact ⟨hxp, by linarith⟩
    · rintro ⟨hxp, hpx⟩
      exact ⟨hxp, by linarith⟩
  · exact Iff.rfl

/-- One-dimensional tiling: every coordinate of [0, W) lies in the clipped
interval of exactly one column of the grid. -/
theorem oneDimPartition {W T : ℤ} (hW : 0 < W) (hT : 0 < T)
    {p : ℤ} (hp0 : 0 ≤ p) (hpW : p < W) :
    ∃! n : ℤ, (0 ≤ n ∧ n < CeilingDivision W T) ∧
      n * T ≤ p ∧ p < n * T + (if n * T + T > W then W - n * T else T) := by
  obtain ⟨hlo, hhi⟩ := ediv_mul_interval hT p
  refine ⟨p / T, ⟨⟨Int.ediv_nonneg hp0 hT.le, ?_⟩, ?_⟩, ?_⟩
  · have h1 : p / T * T < CeilingDivision W T * T :=
      lt_of_le_of_lt hlo (lt_of_lt_of_le hpW (le_ceilingDivision_mul hT))
    exact lt_of_mul_lt_mul_right h1 hT.le
  · exact (mem_clip_iff hpW).mpr ⟨hlo, hhi⟩
  · rintro n ⟨⟨hn0, hnc⟩, hmem⟩
    have hm := (mem_clip_iff hpW).mp hmem
    exact eq_ediv_of_interval hT hm.1 hm.2

/-- CeilingDivision of a positive dividend, written through the
predecessor: ceil(A/s) = (A-1)/s + 1. -/
theorem ceilingDivision_eq_pred_ediv {A s : ℤ} (hA : 0 < A) (hs : 0 < s) :
    CeilingDivision A s = (A - 1) / s + 1 := by
  rw [ceilingDivision_eq_ediv A hs]
  have hd := Int.ediv_add_emod A s
  have r0 := Int.emod_nonneg A (ne_of_gt hs)
  have rT := Int.emod_lt_of_pos A hs
  have hcm : A / s * s = s * (A / s) := by ring
  split_ifs with h
  · have hdvd : s ∣ A := Int.dvd_of_emod_eq_zero h
    have hsa : s ≤ A := Int.le_of_dvd hA hdvd
    have hmul : A / s * s = A := Int.ediv_mul_cancel hdvd
    have he : A - 1 = s - 1 + (A / s - 1) * s := by
      have e2 : (A / s - 1) * s = A / s * s - s := by ring
      linarith
    rw [he, Int.add_mul_ediv_right _ _ (ne_of_gt hs),
      @Int.ediv_eq_zero_of_lt (s - 1) s (by linarith) (by linarith)]
    omega
  · have h5 : 0 < A % s := lt_of_le_of_ne r0 (Ne.symm h)
    have he : A - 1 = A % s - 1 + A / s * s := by linarith
    rw [he, Int.add_mul_ediv_right _ _ (ne_of_gt hs),
      @Int.ediv_eq_zero_of_lt (A % s - 1) s (by linarith) (by linarith)]
    omega

/-- The ceiling of a positive dividend is at least one. -/
theorem one_le_ceilingDivision {A s : ℤ} (hA : 0 < A) (hs : 0 < s) :
    1 ≤ CeilingDivision A s := by
  rw [ceilingDivision_eq_pred_ediv hA hs]
  have := Int.ediv_nonneg (show (0 : ℤ) ≤ A - 1 by omega) hs.le
  omega

/-- Bounding the ceiling from above by a multiple of the divisor. -/
theorem ceilingDivision_le {A s c : ℤ} (hA : 0 < A) (hs : 0 < s)
    (hle : A ≤ c * s) : CeilingDivision A s ≤ c := by
  rw [ceilingDivision_eq_pred_ediv hA hs]
  have h1 : (A - 1) / s < c := by
    rw [Int.ediv_lt_iff_lt_mul hs]
    omega
  omega

/-- On non-negative rationals, Python truncation toward zero is the
floor. -/
theorem pyTrunc_eq_floor {q : ℚ} (hq : 0 ≤ q) : pyTrunc q = ⌊q⌋ := by
  unfold pyTrunc
  rw [Int.tdiv_eq_ediv (Rat.num_nonneg.mpr hq) (Int.natCast_nonneg q.den)]
  exact Rat.floor_def.symm

/-- Truncating the Python true division of non-negative integers gives
euclidean division. -/
theorem pyTrunc_intCast_div (B : ℤ) {s : ℤ} (hB : 0 ≤ B) (hs : 0 < s) :
    pyTrunc ((B : ℚ) / ((s : ℤ) : ℚ)) = B / s := by
  have htn : ((s.toNat : ℕ) : ℤ) = s := Int.toNat_of_nonneg hs.le
  have hq : ((s : ℤ) : ℚ) = ((s.toNat : ℕ) : ℚ) := by
    exact_mod_cast htn.symm
  rw [hq]
  have hnn : (0 : ℚ) ≤ (B : ℚ) / ((s.toNat : ℕ) : ℚ) := by
    apply div_nonneg
    · exact_mod_cast hB
    · exact_mod_cast Nat.zero_le s.toNat
  rw [pyTrunc_eq_floor hnn, Rat.floor_intCast_div_natCast, htn]

/-- Truncating the script's float (A + s - 1) / s is exactly the integer
ceiling of A / s: the +s-1 numerator plus the %d truncation implement the
IIIF rounding rule. -/
theorem pyTrunc_trueDiv_eq_ceil {A s : ℤ} (hA : 0 < A) (hs : 0 < s) :
    pyTrunc (((A + s - 1 : ℤ) : ℚ) / ((s : ℤ) : ℚ)) = CeilingDivision A s := by
  rw [pyTrunc_intCast_div (A + s - 1) (by omega) hs,
    ceilingDivision_eq_pred_ediv hA hs]
  have he : A + s - 1 = A - 1 + 1 * s := by ring
  rw [he, Int.add_mul_ediv_right _ _ (ne_of_gt hs)]

/-! ### Unfolding lemmas for ComputeTileRequest and ComputeOutputSize -/

theorem computeTileRequest_x (width height tw th s n m : ℤ) :
    (ComputeTileRequest width height tw th s n m).x = n * tw * s := rfl

theorem computeTileRequest_y (width height tw th s n m : ℤ) :
    (ComputeTileRequest width height tw th s n m).y = m * th * s := rfl

theorem computeTileRequest_w (width height tw th s n m : ℤ) :
    (ComputeTileRequest width height tw th s n m).w =
      if n * tw * s + tw * s > width then width - n * tw * s else tw * s := rfl

theorem computeTileRequest_h (width height tw th s n m : ℤ) :
    (ComputeTileRequest width height tw th s n m).h =
      if m * th * s + th * s > height then height - m * th * s
      else th * s := rfl

theorem computeTileRequest_ws (width height tw th s n m : ℤ) :
    (ComputeTileRequest width height tw th s n m).ws =
      ComputeOutputSize width tw s (n * tw * s) := rfl

theorem computeTileRequest_hs (width height tw th s n m : ℤ) :
    (ComputeTileRequest width height tw th s n m).hs =
      ComputeOutputSize height th s (m * th * s) := rfl

/-- The %d-formatted output size equals the tile extent, or the integer
ceiling of the clipped extent over the scale when the tile overhangs. -/
theorem computeOutputSize_formatD {width tw s xr : ℤ} (hs : 0 < s)
    (hxr : xr < width) :
    (ComputeOutputSize width tw s xr).formatD =
      if xr + tw * s > width then CeilingDivision (width - xr) s else tw := by
  unfold ComputeOutputSize
  split_ifs with h
  · show pyTrunc _ = _
    exact pyTrunc_trueDiv_eq_ceil (by omega) hs
  · rfl

/-- The raw output size is a float exactly when the tile overhangs the
image edge. -/
theorem computeOutputSize_isInt (width tw s xr : ℤ) :
    (ComputeOutputSize width tw s xr).isInt = false ↔ xr + tw * s > width := by
  unfold ComputeOutputSize
  split_ifs with h
  · simp [PyNum.isInt, h]
  · simp [PyNum.isInt, h]

/-- Shared facts about the region of a valid tile: the coordinates are in
range, the extents are positive, at most a full tile, and the region stays
inside the image. -/
theorem tileRegionFacts (width height tw th s n m : ℤ)
    (hw : 0 < width) (hh : 0 < height) (htw : 0 < tw) (hth : 0 < th)
    (hs : 0 < s) (hv : ValidTile width height tw th s n m) :
    0 ≤ (ComputeTileRequest width height tw th s n m).x ∧
    (ComputeTileRequest width height tw th s n m).x < width ∧
    0 < (ComputeTileRequest width height tw th s n m).w ∧
    (ComputeTileRequest width height tw th s n m).w ≤ tw * s ∧
    (ComputeTileRequest width height tw th s n m).x +
      (ComputeTileRequest width height tw th s n m).w ≤ width ∧
    0 ≤ (ComputeTileRequest width height tw th s n m).y ∧
    (ComputeTileRequest width height tw th s n m).y < height ∧
    0 < (ComputeTileRequest width height tw th s n m).h ∧
    (ComputeTileRequest width height tw th s n m).h ≤ th * s ∧
    (ComputeTileRequest width height tw th s n m).y +
      (ComputeTileRequest width height tw th s n m).h ≤ height := by
  obtain ⟨hn0, hnc, hm0, hmc⟩ := hv
  have hTx : 0 < tw * s := mul_pos htw hs
  have hTy : 0 < th * s := mul_pos hth hs
  have hxlt : n * tw * s < width := by
    rw [mul_assoc]
    exact mul_lt_of_lt_ceilingDivision hw hTx hnc
  have hylt : m * th * s < height := by
    rw [mul_assoc]
    exact mul_lt_of_lt_ceilingDivision hh hTy hmc
  have hx0 : 0 ≤ n * tw * s := by
    rw [mul_assoc]
    exact mul_nonneg hn0 hTx.le
  have hy0 : 0 ≤ m * th * s := by
    rw [mul_assoc]
    exact mul_nonneg hm0 hTy.le
  rw [computeTileRequest_x, computeTileRequest_y, computeTileRequest_w,
    computeTileRequest_h]
  refine ⟨hx0, hxlt, ?_, ?_, ?_, hy0, hylt, ?_, ?_, ?_⟩
  · split_ifs with hc
    · omega
    · exact hTx
  · split_ifs with hc
    · omega
    · exact le_refl _
  · split_ifs with hc
    · omega
    · omega
  · split_ifs with hc
    · omega
    · exact hTy
  · split_ifs with hc
    · omega
    · exact le_refl _
  · split_ifs with hc
    · omega
    · omega

/-- ValidTile, unfolded to the two one-dimensional grid bounds. -/
theorem validTile_iff (width height tw th s n m : ℤ) :
    ValidTile width height tw th s n m ↔
      (0 ≤ n ∧ n < CeilingDivision width (tw * s)) ∧
      (0 ≤ m ∧ m < CeilingDivision height (th * s)) := by
  unfold ValidTile ComputeGridSize
  tauto

/-- InRegion, unfolded to the two one-dimensional clipped intervals. -/
theorem inRegion_iff (width height tw th s n m px py : ℤ) :
    InRegion width height tw th s n m px py ↔
      (n * (tw * s) ≤ px ∧
        px < n * (tw * s) +
          (if n * (tw * s) + tw * s > width then width - n * (tw * s)
           else tw * s)) ∧
      (m * (th * s) ≤ py ∧
        py < m * (th * s) +
          (if m * (th * s) + th * s > height then height - m * (th * s)
           else th * s)) := by
  show (ComputeTileRequest width height tw th s n m).x ≤ px ∧
      px < (ComputeTileRequest width height tw th s n m).x +
        (ComputeTileRequest width height tw th s n m).w ∧
      (ComputeTileRequest width height tw th s n m).y ≤ py ∧
      py < (ComputeTileRequest width height tw th s n m).y +
        (ComputeTileRequest width height tw th s n m).h ↔ _
  rw [computeTileRequest_x, computeTileRequest_y, computeTileRequest_w,
    computeTileRequest_h, mul_assoc n tw s, mul_assoc m th s]
  tauto

/-! ### Claim theorems -/

/-- C1: for positive width, height, tile dimensions and scale, the regions
produced by ComputeTileRequest over the grid of ComputeGridSize exactly
tile the rectangle [0,width) x [0,height): every pixel of the rectangle
lies in the region of exactly one valid tile (no gaps, no overlaps), and
every valid tile's region lies inside the rectangle. -/
theorem tile_regions_exact_cover (width height tw th s : ℤ)
    (hw : 0 < width) (hh : 0 < height) (htw : 0 < tw) (hth : 0 < th)
    (hs : 0 < s) :
    (∀ px py : ℤ, 0 ≤ px → px < width → 0 ≤ py → py < height →
      ∃! nm : ℤ × ℤ, ValidTile width height tw th s nm.1 nm.2 ∧
        InRegion width height tw th s nm.1 nm.2 px py) ∧
    (∀ n m px py : ℤ, ValidTile width height tw th s n m →
      InRegion width height tw th s n m px py →
      0 ≤ px ∧ px < width ∧ 0 ≤ py ∧ py < height) := by
  have hTx : 0 < tw * s := mul_pos htw hs
  have hTy : 0 < th * s := mul_pos hth hs
  constructor
  · intro px py hx0 hxw hy0 hyh
    obtain ⟨nx, hPx, hnxu⟩ := oneDimPartition hw hTx hx0 hxw
    obtain ⟨ny, hPy, hnyu⟩ := oneDimPartition hh hTy hy0 hyh
    refine ⟨(nx, ny), ⟨?_, ?_⟩, ?_⟩
    · rw [validTile_iff]
      exact ⟨hPx.1, hPy.1⟩
    · rw [inRegion_iff]
      exact ⟨hPx.2, hPy.2⟩
    · rintro ⟨n, m⟩ ⟨hv, hr⟩
      rw [validTile_iff] at hv
      rw [inRegion_iff] at hr
      have e1 : n = nx := hnxu n ⟨hv.1, hr.1⟩
      have e2 : m = ny := hnyu m ⟨hv.2, hr.2⟩
      simp [e1, e2]
  · intro n m px py hv hr
    rw [validTile_iff] at hv
    rw [inRegion_iff] at hr
    obtain ⟨⟨hn0, hnc⟩, hm0, hmc⟩ := hv
    obtain ⟨⟨h1, h2⟩, h3, h4⟩ := hr
    have hxlt : n * (tw * s) < width := mul_lt_of_lt_ceilingDivision hw hTx hnc
    have hylt : m * (th * s) < height :=
      mul_lt_of_lt_ceilingDivision hh hTy hmc
    have hx0 : 0 ≤ n * (tw * s) := mul_nonneg hn0 hTx.le
    have hy0 : 0 ≤ m * (th * s) := mul_nonneg hm0 hTy.le
    refine ⟨le_trans hx0 h1, ?_, le_trans hy0 h3, ?_⟩
    · by_cases hc : n * (tw * s) + tw * s > width
      · rw [if_pos hc] at h2
        linarith
      · rw [if_neg hc] at h2
        push_neg at hc
        linarith
    · by_cases hc : m * (th * s) + th * s > height
      · rw [if_pos hc] at h4
        linarith
      · rw [if_neg hc] at h4
        push_neg at hc
        linarith

/-- Witness for C1 at the concrete input width = height = 1000,
tile 512 x 512, scale 1. -/
theorem tile_regions_exact_cover_witness :
    (∀ px py : ℤ, 0 ≤ px → px < 1000 → 0 ≤ py → py < 1000 →
      ∃! nm : ℤ × ℤ, ValidTile 1000 1000 512 512 1 nm.1 nm.2 ∧
        InRegion 1000 1000 512 512 1 nm.1 nm.2 px py) ∧
    (∀ n m px py : ℤ, ValidTile 1000 1000 512 512 1 n m →
      InRegion 1000 1000 512 512 1 n m px py →
      0 ≤ px ∧ px < 1000 ∧ 0 ≤ py ∧ py < 1000) :=
  tile_regions_exact_cover 1000 1000 512 512 1 (by decide) (by decide)
    (by decide) (by decide) (by decide)

/-- C2: ComputeGridSize returns the ceiling divisions of width and height
by tileWidth*scale and tileHeight*scale, with the integer rule: a/b when b
divides a, else a/b + 1, under truncating integer division. -/
theorem computeGridSize_ceiling (width height tw th s : ℤ)
    (hw : 0 < width) (hh : 0 < height) (htw : 0 < tw) (hth : 0 < th)
    (hs : 0 < s) :
    ComputeGridSize width height tw th s =
      (if (tw * s) ∣ width then width.tdiv (tw * s)
        else width.tdiv (tw * s) + 1,
       if (th * s) ∣ height then height.tdiv (th * s)
        else height.tdiv (th * s) + 1) := by
  unfold ComputeGridSize
  rw [ceilingDivision_eq_tdiv_rule hw.le (mul_pos htw hs),
    ceilingDivision_eq_tdiv_rule hh.le (mul_pos hth hs)]

/-- Witness for C2 at width = height = 1000, tile 512 x 512, scale 2. -/
theorem computeGridSize_ceiling_witness :
    ComputeGridSize 1000 1000 512 512 2 =
      (if (512 * 2 : ℤ) ∣ 1000 then (1000 : ℤ).tdiv (512 * 2)
        else (1000 : ℤ).tdiv (512 * 2) + 1,
       if (512 * 2 : ℤ) ∣ 1000 then (1000 : ℤ).tdiv (512 * 2)
        else (1000 : ℤ).tdiv (512 * 2) + 1) :=
  computeGridSize_ceiling 1000 1000 512 512 2 (by decide) (by decide)
    (by decide) (by decide) (by decide)

/-- C3: for a valid tile, the emitted output width is the tile width,
unless the tile overhangs the image, in which case it is the integer
ceiling (divisibility rule, truncating division) of the remaining width
over the scale; analogously for the height; and both emitted output sizes
lie between 1 and the tile extents. -/
theorem outputSize_rule_bounds (width height tw th s n m : ℤ)
    (hw : 0 < width) (hh : 0 < height) (htw : 0 < tw) (hth : 0 < th)
    (hs : 0 < s) (hv : ValidTile width height tw th s n m) :
    ((ComputeTileRequest width height tw th s n m).outW =
      if n * tw * s + tw * s > width
      then (if s ∣ (width - n * tw * s) then (width - n * tw * s).tdiv s
        else (width - n * tw * s).tdiv s + 1)
      else tw) ∧
    ((ComputeTileRequest width height tw th s n m).outH =
      if m * th * s + th * s > height
      then (if s ∣ (height - m * th * s) then (height - m * th * s).tdiv s
        else (height - m * th * s).tdiv s + 1)
      else th) ∧
    1 ≤ (ComputeTileRequest width height tw th s n m).outW ∧
    (ComputeTileRequest width height tw th s n m).outW ≤ tw ∧
    1 ≤ (ComputeTileRequest width height tw th s n m).outH ∧
    (ComputeTileRequest width height tw th s n m).outH ≤ th := by
  obtain ⟨hn0, hnc, hm0, hmc⟩ := hv
  have hTx : 0 < tw * s := mul_pos htw hs
  have hTy : 0 < th * s := mul_pos hth hs
  have hxlt : n * tw * s < width := by
    rw [mul_assoc]
    exact mul_lt_of_lt_ceilingDivision hw hTx hnc
  have hylt : m * th * s < height := by
    rw [mul_assoc]
    exact mul_lt_of_lt_ceilingDivision hh hTy hmc
  have hW : (ComputeTileRequest width height tw th s n m).outW =
      if n * tw * s + tw * s > width
      then CeilingDivision (width - n * tw * s) s else tw := by
    show (ComputeOutputSize width tw s (n * tw * s)).formatD = _
    exact computeOutputSize_formatD hs hxlt
  have hH : (ComputeTileRequest width height tw th s n m).outH =
      if m * th * s + th * s > height
      then CeilingDivision (height - m * th * s) s else th := by
    show (ComputeOutputSize height th s (m * th * s)).formatD = _
    exact computeOutputSize_formatD hs hylt
  refine ⟨?_, ?_, ?_, ?_, ?_, ?_⟩
  · rw [hW]
    by_cases hc : n * tw * s + tw * s > width
    · rw [if_pos hc, if_pos hc]
      exact @ceilingDivision_eq_tdiv_rule (width - n * tw * s) s (by omega) hs
    · rw [if_neg hc, if_neg hc]
  · rw [hH]
    by_cases hc : m * th * s + th * s > height
    · rw [if_pos hc, if_pos hc]
      exact @ceilingDivision_eq_tdiv_rule (height - m * th * s) s (by omega) hs
    · rw [if_neg hc, if_neg hc]
  · rw [hW]
    split_ifs with hc
    · exact @one_le_ceilingDivision (width - n * tw * s) s (by omega) hs
    · omega
  · rw [hW]
    split_ifs with hc
    · exact @ceilingDivision_le (width - n * tw * s) s tw (by omega) hs
        (by omega)
    · exact le_refl tw
  · rw [hH]
    split_ifs with hc
    · exact @one_le_ceilingDivision (height - m * th * s) s (by omega) hs
    · omega
  · rw [hH]
    split_ifs with hc
    · exact @ceilingDivision_le (height - m * th * s) s th (by omega) hs
        (by omega)
    · exact le_refl th

/-- Witness for C3 at the clipped corner tile (1,1) of the 1000 x 1000,
512 x 512, scale 1 grid. -/
theorem outputSize_rule_bounds_witness :
    ((ComputeTileRequest 1000 1000 512 512 1 1 1).outW =
      if 1 * 512 * 1 + 512 * 1 > 1000
      then (if (1 : ℤ) ∣ (1000 - 1 * 512 * 1)
        then (1000 - 1 * 512 * 1 : ℤ).tdiv 1
        else (1000 - 1 * 512 * 1 : ℤ).tdiv 1 + 1)
      else 512) ∧
    ((ComputeTileRequest 1000 1000 512 512 1 1 1).outH =
      if 1 * 512 * 1 + 512 * 1 > 1000
      then (if (1 : ℤ) ∣ (1000 - 1 * 512 * 1)
        then (1000 - 1 * 512 * 1 : ℤ).tdiv 1
        else (1000 - 1 * 512 * 1 : ℤ).tdiv 1 + 1)
      else 512) ∧
    1 ≤ (ComputeTileRequest 1000 1000 512 512 1 1 1).outW ∧
    (ComputeTileRequest 1000 1000 512 512 1 1 1).outW ≤ 512 ∧
    1 ≤ (ComputeTileRequest 1000 1000 512 512 1 1 1).outH ∧
    (ComputeTileRequest 1000 1000 512 512 1 1 1).outH ≤ 512 :=
  outputSize_rule_bounds 1000 1000 512 512 1 1 1 (by decide) (by decide)
    (by decide) (by decide) (by decide) (by decide)

/-- C6: for a valid tile, the region is x = column*tileWidth*scale,
y = row*tileHeight*scale, with the extents tileWidth*scale and
tileHeight*scale clipped to the image edge, the extents are positive and
at most a full tile, and the region lies inside [0,width) x [0,height). -/
theorem region_rule_bounds (width height tw th s n m : ℤ)
    (hw : 0 < width) (hh : 0 < height) (htw : 0 < tw) (hth : 0 < th)
    (hs : 0 < s) (hv : ValidTile width height tw th s n m) :
    (ComputeTileRequest width height tw th s n m).x = n * tw * s ∧
    (ComputeTileRequest width height tw th s n m).y = m * th * s ∧
    (ComputeTileRequest width height tw th s n m).w =
      (if (ComputeTileRequest width height tw th s n m).x + tw * s > width
       then width - (ComputeTileRequest width height tw th s n m).x
       else tw * s) ∧
    (ComputeTileRequest width height tw th s n m).h =
      (if (ComputeTileRequest width height tw th s n m).y + th * s > height
       then height - (ComputeTileRequest width height tw th s n m).y
       else th * s) ∧
    0 < (ComputeTileRequest width height tw th s n m).w ∧
    (ComputeTileRequest width height tw th s n m).w ≤ tw * s ∧
    0 < (ComputeTileRequest width height tw th s n m).h ∧
    (ComputeTileRequest width height tw th s n m).h ≤ th * s ∧
    0 ≤ (ComputeTileRequest width height tw th s n m).x ∧
    (ComputeTileRequest width height tw th s n m).x +
      (ComputeTileRequest width height tw th s n m).w ≤ width ∧
    0 ≤ (ComputeTileRequest width height tw th s n m).y ∧
    (ComputeTileRequest width height tw th s n m).y +
      (ComputeTileRequest width height tw th s n m).h ≤ height := by
  obtain ⟨f1, f2, f3, f4, f5, f6, f7, f8, f9, f10⟩ :=
    tileRegionFacts width height tw th s n m hw hh htw hth hs hv
  refine ⟨computeTileRequest_x width height tw th s n m,
    computeTileRequest_y width height tw th s n m, ?_, ?_,
    f3, f4, f8, f9, f1, f5, f6, f10⟩
  · rw [computeTileRequest_w, computeTileRequest_x]
  · rw [computeTileRequest_h, computeTileRequest_y]

/-- Witness for C6 at the clipped corner tile (1,1) of the 1000 x 1000,
512 x 512, scale 1 grid. -/
theorem region_rule_bounds_witness :
    (ComputeTileRequest 1000 1000 512 512 1 1 1).x = 1 * 512 * 1 ∧
    (ComputeTileRequest 1000 1000 512 512 1 1 1).y = 1 * 512 * 1 ∧
    (ComputeTileRequest 1000 1000 512 512 1 1 1).w =
      (if (ComputeTileRequest 1000 1000 512 512 1 1 1).x + 512 * 1 > 1000
       then 1000 - (ComputeTileRequest 1000 1000 512 512 1 1 1).x
       else 512 * 1) ∧
    (ComputeTileRequest 1000 1000 512 512 1 1 1).h =
      (if (ComputeTileRequest 1000 1000 512 512 1 1 1).y + 512 * 1 > 1000
       then 1000 - (ComputeTileRequest 1000 1000 512 512 1 1 1).y
       else 512 * 1) ∧
    0 < (ComputeTileRequest 1000 1000 512 512 1 1 1).w ∧
    (ComputeTileRequest 1000 1000 512 512 1 1 1).w ≤ 512 * 1 ∧
    0 < (ComputeTileRequest 1000 1000 512 512 1 1 1).h ∧
    (ComputeTileRequest 1000 1000 512 512 1 1 1).h ≤ 512 * 1 ∧
    0 ≤ (ComputeTileRequest 1000 1000 512 512 1 1 1).x ∧
    (ComputeTileRequest 1000 1000 512 512 1 1 1).x +
      (ComputeTileRequest 1000 1000 512 512 1 1 1).w ≤ 1000 ∧
    0 ≤ (ComputeTileRequest 1000 1000 512 512 1 1 1).y ∧
    (ComputeTileRequest 1000 1000 512 512 1 1 1).y +
      (ComputeTileRequest 1000 1000 512 512 1 1 1).h ≤ 1000 :=
  region_rule_bounds 1000 1000 512 512 1 1 1 (by decide) (by decide)
    (by decide) (by decide) (by decide) (by decide)

/-- C5: the two boundary examples.  At scale 1 the 1000 x 1000 image with
512 x 512 tiles has a 2 x 2 grid whose corner tile (1,1) has region
(512,512,488,488) and emitted output size (488,488); at scale 2 the grid
is 1 x 1 and tile (0,0) has region (0,0,1000,1000) and emitted output
size (500,500). -/
theorem boundary_examples :
    ComputeGridSize 1000 1000 512 512 1 = (2, 2) ∧
    (ComputeTileRequest 1000 1000 512 512 1 1 1).x = 512 ∧
    (ComputeTileRequest 1000 1000 512 512 1 1 1).y = 512 ∧
    (ComputeTileRequest 1000 1000 512 512 1 1 1).w = 488 ∧
    (ComputeTileRequest 1000 1000 512 512 1 1 1).h = 488 ∧
    (ComputeTileRequest 1000 1000 512 512 1 1 1).outW = 488 ∧
    (ComputeTileRequest 1000 1000 512 512 1 1 1).outH = 488 ∧
    ComputeGridSize 1000 1000 512 512 2 = (1, 1) ∧
    (ComputeTileRequest 1000 1000 512 512 2 0 0).x = 0 ∧
    (ComputeTileRequest 1000 1000 512 512 2 0 0).y = 0 ∧
    (ComputeTileRequest 1000 1000 512 512 2 0 0).w = 1000 ∧
    (ComputeTileRequest 1000 1000 512 512 2 0 0).h = 1000 ∧
    (ComputeTileRequest 1000 1000 512 512 2 0 0).outW = 500 ∧
    (ComputeTileRequest 1000 1000 512 512 2 0 0).outH = 500 := by
  refine ⟨by decide, by decide, by decide, by decide, by decide,
    ?_, ?_, by decide, by decide, by decide, by decide, by decide, ?_, ?_⟩
  · show (ComputeOutputSize 1000 512 1 (1 * 512 * 1)).formatD = 488
    norm_num [ComputeOutputSize, PyNum.formatD, pyTrunc]
  · show (ComputeOutputSize 1000 512 1 (1 * 512 * 1)).formatD = 488
    norm_num [ComputeOutputSize, PyNum.formatD, pyTrunc]
  · show (ComputeOutputSize 1000 512 2 (0 * 512 * 2)).formatD = 500
    norm_num [ComputeOutputSize, PyNum.formatD, pyTrunc]
    decide
  · show (ComputeOutputSize 1000 512 2 (0 * 512 * 2)).formatD = 500
    norm_num [ComputeOutputSize, PyNum.formatD, pyTrunc]
    decide

/-- C4 counterexample: at width = height = 1000, tile 512 x 512, scale 1,
the tile (1,1) is a valid tile of the 2 x 2 grid, yet the ws value that
enters the %d formatting of the emitted URL is the Python float 488.0
produced by true division, not an integer. -/
theorem float_in_output_path :
    ValidTile 1000 1000 512 512 1 1 1 ∧
    (ComputeTileRequest 1000 1000 512 512 1 1 1).ws = .float 488 ∧
    (ComputeTileRequest 1000 1000 512 512 1 1 1).ws.isInt = false := by
  refine ⟨by decide, ?_, ?_⟩
  · show ComputeOutputSize 1000 512 1 (1 * 512 * 1) = PyNum.float 488
    norm_num [ComputeOutputSize]
  · show (ComputeOutputSize 1000 512 1 (1 * 512 * 1)).isInt = false
    norm_num [ComputeOutputSize, PyNum.isInt]

/-- C4 amended: for every valid tile, the region values and the emitted
(%d-truncated) output sizes are non-negative integers, but the raw ws / hs
values are floats exactly when the tile is clipped at the right / bottom
edge: floating point does occur on the emitted path, and only there. -/
theorem emitted_values_amended (width height tw th s n m : ℤ)
    (hw : 0 < width) (hh : 0 < height) (htw : 0 < tw) (hth : 0 < th)
    (hs : 0 < s) (hv : ValidTile width height tw th s n m) :
    0 ≤ (ComputeTileRequest width height tw th s n m).x ∧
    0 ≤ (ComputeTileRequest width height tw th s n m).y ∧
    0 ≤ (ComputeTileRequest width height tw th s n m).w ∧
    0 ≤ (ComputeTileRequest width height tw th s n m).h ∧
    0 ≤ (ComputeTileRequest width height tw th s n m).outW ∧
    0 ≤ (ComputeTileRequest width height tw th s n m).outH ∧
    ((ComputeTileRequest width height tw th s n m).ws.isInt = false ↔
      (ComputeTileRequest width height tw th s n m).x + tw * s > width) ∧
    ((ComputeTileRequest width height tw th s n m).hs.isInt = false ↔
      (ComputeTileRequest width height tw th s n m).y + th * s > height) := by
  obtain ⟨f1, f2, f3, f4, f5, f6, f7, f8, f9, f10⟩ :=
    tileRegionFacts width height tw th s n m hw hh htw hth hs hv
  obtain ⟨hn0, hnc, hm0, hmc⟩ := hv
  have hTx : 0 < tw * s := mul_pos htw hs
  have hTy : 0 < th * s := mul_pos hth hs
  have hxlt : n * tw * s < width := by
    rw [mul_assoc]
    exact mul_lt_of_lt_ceilingDivision hw hTx hnc
  have hylt : m * th * s < height := by
    rw [mul_assoc]
    exact mul_lt_of_lt_ceilingDivision hh hTy hmc
  have hW : (ComputeTileRequest width height tw th s n m).outW =
      if n * tw * s + tw * s > width
      then CeilingDivision (width - n * tw * s) s else tw := by
    show (ComputeOutputSize width tw s (n * tw * s)).formatD = _
    exact computeOutputSize_formatD hs hxlt
  have hH : (ComputeTileRequest width height tw th s n m).outH =
      if m * th * s + th * s > height
      then CeilingDivision (height - m * th * s) s else th := by
    show (ComputeOutputSize height th s (m * th * s)).formatD = _
    exact computeOutputSize_formatD hs hylt
  refine ⟨f1, f6, f3.le, f8.le, ?_, ?_, ?_, ?_⟩
  · rw [hW]
    split_ifs with hc
    · exact le_of_lt (@one_le_ceilingDivision (width - n * tw * s) s
        (by omega) hs)
    · omega
  · rw [hH]
    split_ifs with hc
    · exact le_of_lt (@one_le_ceilingDivision (height - m * th * s) s
        (by omega) hs)
    · omega
  · rw [computeTileRequest_ws, computeTileRequest_x]
    exact computeOutputSize_isInt width tw s (n * tw * s)
  · rw [computeTileRequest_hs, computeTileRequest_y]
    exact computeOutputSize_isInt height th s (m * th * s)

/-- Witness for the amended C4 at the clipped corner tile (1,1) of the
1000 x 1000, 512 x 512, scale 1 grid. -/
theorem emitted_values_amended_witness :
    0 ≤ (ComputeTileRequest 1000 1000 512 512 1 1 1).x ∧
    0 ≤ (ComputeTileRequest 1000 1000 512 512 1 1 1).y ∧
    0 ≤ (ComputeTileRequest 1000 1000 512 512 1 1 1).w ∧
    0 ≤ (ComputeTileRequest 1000 1000 512 512 1 1 1).h ∧
    0 ≤ (ComputeTileRequest 1000 1000 512 512 1 1 1).outW ∧
    0 ≤ (ComputeTileRequest 1000 1000 512 512 1 1 1).outH ∧
    ((ComputeTileRequest 1000 1000 512 512 1 1 1).ws.isInt = false ↔
      (ComputeTileRequest 1000 1000 512 512 1 1 1).x + 512 * 1 > 1000) ∧
    ((ComputeTileRequest 1000 1000 512 512 1 1 1).hs.isInt = false ↔
      (ComputeTileRequest 1000 1000 512 512 1 1 1).y + 512 * 1 > 1000) :=
  emitted_values_amended 1000 1000 512 512 1 1 1 (by decide) (by decide)
    (by decide) (by decide) (by decide) (by decide)

/-- A concrete info.json document whose single profile declares the
non-positive integer scale factor -1. -/
def negScaleInfo : IIIFInfo :=
  ⟨[⟨.int 512, .int 512, [.int (-1)]⟩], [⟨.int 1000, .int 1000⟩]⟩

/-- C7 counterexample: on a document with the non-positive scale factor
-1 the script does not reject the input: no assertion fires; instead the
grid (-1, -1) is computed (Python range(-1) is empty) and the run
completes silently. -/
theorem nonpositive_scale_not_rejected :
    runScript negScaleInfo (fun _ => true) =
      .completed [(-1, -1)] [] := by rfl

/-- C7 amended: a document whose tiles list is not a single profile, or
whose scaleFactors length differs from the sizes length, or whose tile
width / height or selected width / height is not an integer (an empty
sizes list leaves the selected width as None), is rejected by an
assertion before any grid is computed.  A non-positive integer scale
factor, however, is not rejected. -/
theorem invalid_input_rejected (info : IIIFInfo) (oracle : TileRequest → Bool)
    (hbad : info.tiles.length ≠ 1 ∨
      ∃ profile, info.tiles = [profile] ∧
        (profile.scaleFactors.length ≠ info.sizes.length ∨
         profile.width.isInt = false ∨ profile.height.isInt = false ∨
         selectMaxWidth info.sizes = none ∨
         ∃ wh, selectMaxWidth info.sizes = some wh ∧
           (wh.1.isInt = false ∨ wh.2.isInt = false))) :
    runScript info oracle = .assertFailed [] [] := by
  obtain ⟨tiles, sizes⟩ := info
  dsimp only at hbad
  rcases hbad with hlen | ⟨profile, hp, hcase⟩
  · rcases tiles with _ | ⟨p, _ | ⟨q, tl⟩⟩
    · rfl
    · exact absurd rfl hlen
    · rfl
  · subst hp
    rcases profile with ⟨pw, ph, psf⟩
    simp only [runScript]
    dsimp only at hcase
    rcases hcase with hl | hwf | hhf | hselnone | ⟨⟨w1, h1⟩, hsel, hwh⟩
    · rw [if_neg hl]
    · by_cases hleq : psf.length = sizes.length
      · rw [if_pos hleq]
        rcases hsel2 : selectMaxWidth sizes with _ | ⟨w1, h1⟩
        · rfl
        · rcases pw with nw | qw
          · simp [PyNum.isInt] at hwf
          · rcases w1 with a | b <;> rcases h1 with c | d <;>
              rcases ph with nh | qh <;> rfl
      · rw [if_neg hleq]
    · by_cases hleq : psf.length = sizes.length
      · rw [if_pos hleq]
        rcases hsel2 : selectMaxWidth sizes with _ | ⟨w1, h1⟩
        · rfl
        · rcases ph with nh | qh
          · simp [PyNum.isInt] at hhf
          · rcases w1 with a | b <;> rcases h1 with c | d <;>
              rcases pw with nw | qw <;> rfl
      · rw [if_neg hleq]
    · by_cases hleq : psf.length = sizes.length
      · rw [if_pos hleq, hselnone]
      · rw [if_neg hleq]
    · by_cases hleq : psf.length = sizes.length
      · rw [if_pos hleq, hsel]
        rcases hwh with hw1 | hh1
        · rcases w1 with a | b
          · simp [PyNum.isInt] at hw1
          · rcases h1 with c | d <;> rcases pw with nw | qw <;>
              rcases ph with nh | qh <;> rfl
        · rcases h1 with c | d
          · simp [PyNum.isInt] at hh1
          · rcases w1 with a | b <;> rcases pw with nw | qw <;>
              rcases ph with nh | qh <;> rfl
      · rw [if_neg hleq]

/-- A concrete document declaring two tile profiles. -/
def twoProfileInfo : IIIFInfo :=
  ⟨[⟨.int 512, .int 512, [.int 1]⟩, ⟨.int 256, .int 256, [.int 1]⟩],
   [⟨.int 1000, .int 1000⟩]⟩

/-- Witness for the amended C7: the two-profile document is rejected by
assertion before any grid is computed. -/
theorem invalid_input_rejected_witness :
    runScript twoProfileInfo (fun _ => true) = .assertFailed [] [] :=
  invalid_input_rejected twoProfileInfo (fun _ => true) (Or.inl (by decide))

/-- Invariant of the maximum-width selection loop once an entry has been
taken: the accumulator always holds a pair drawn from a seen entry (or the
starting pair), and its width dominates the starting width and every
entry examined so far. -/
theorem foldl_selectStep_some (rest : List SizeEntry) (w h : PyNum) :
    ∃ w2 h2, rest.foldl selectStep (some (w, h)) = some (w2, h2) ∧
      ((w2 = w ∧ h2 = h) ∨ ∃ e ∈ rest, w2 = e.width ∧ h2 = e.height) ∧
      w.val ≤ w2.val ∧ ∀ e ∈ rest, e.width.val ≤ w2.val := by
  induction rest generalizing w h with
  | nil =>
    exact ⟨w, h, rfl, Or.inl ⟨rfl, rfl⟩, le_refl _, by simp⟩
  | cons e tl ih =>
    by_cases hc : e.width.val > w.val
    · obtain ⟨w2, h2, hfold, hfrom, hle, hall⟩ := ih e.width e.height
      refine ⟨w2, h2, ?_, ?_, ?_, ?_⟩
      · simpa [selectStep, hc] using hfold
      · rcases hfrom with ⟨hw2, hh2⟩ | ⟨e2, he2, hp1, hp2⟩
        · exact Or.inr ⟨e, List.mem_cons_self e tl, hw2, hh2⟩
        · exact Or.inr ⟨e2, List.mem_cons_of_mem e he2, hp1, hp2⟩
      · exact le_trans (le_of_lt hc) hle
      · intro e2 he2
        rcases List.mem_cons.mp he2 with rfl | h2m
        · exact hle
        · exact hall e2 h2m
    · obtain ⟨w2, h2, hfold, hfrom, hle, hall⟩ := ih w h
      refine ⟨w2, h2, ?_, ?_, hle, ?_⟩
      · simpa [selectStep, hc] using hfold
      · rcases hfrom with ⟨hw2, hh2⟩ | ⟨e2, he2, hp1, hp2⟩
        · exact Or.inl ⟨hw2, hh2⟩
        · exact Or.inr ⟨e2, List.mem_cons_of_mem e he2, hp1, hp2⟩
      · intro e2 he2
        rcases List.mem_cons.mp he2 with rfl | h2m
        · exact le_trans (not_lt.mp hc) hle
        · exact hall e2 h2m

/-- C8: on a non-empty sizes list, the selection loop returns a pair
(w, h) that is the width and height of some entry of the list, and w is
the maximum width over all entries. -/
theorem selectMaxWidth_max (sizes : List SizeEntry) (hne : sizes ≠ []) :
    ∃ wh, selectMaxWidth sizes = some wh ∧
      (∃ e ∈ sizes, wh.1 = e.width ∧ wh.2 = e.height) ∧
      ∀ e ∈ sizes, e.width.val ≤ wh.1.val := by
  rcases sizes with _ | ⟨e0, tl⟩
  · exact absurd rfl hne
  · obtain ⟨w2, h2, hfold, hfrom, hle, hall⟩ :=
      foldl_selectStep_some tl e0.width e0.height
    refine ⟨(w2, h2), ?_, ?_, ?_⟩
    · show (e0 :: tl).foldl selectStep none = some (w2, h2)
      simpa [selectStep] using hfold
    · rcases hfrom with ⟨hw2, hh2⟩ | ⟨e2, he2, hp1, hp2⟩
      · exact ⟨e0, List.mem_cons_self e0 tl, hw2, hh2⟩
      · exact ⟨e2, List.mem_cons_of_mem e0 he2, hp1, hp2⟩
    · intro e2 he2
      rcases List.mem_cons.mp he2 with rfl | h2m
      · exact hle
      · exact hall e2 h2m

/-- Witness for C8 on a concrete two-entry sizes list. -/
theorem selectMaxWidth_max_witness :
    ∃ wh, selectMaxWidth [⟨.int 500, .int 300⟩, ⟨.int 1000, .int 700⟩]
        = some wh ∧
      (∃ e ∈ ([⟨.int 500, .int 300⟩, ⟨.int 1000, .int 700⟩] :
          List SizeEntry), wh.1 = e.width ∧ wh.2 = e.height) ∧
      ∀ e ∈ ([⟨.int 500, .int 300⟩, ⟨.int 1000, .int 700⟩] :
          List SizeEntry), e.width.val ≤ wh.1.val :=
  selectMaxWidth_max [⟨.int 500, .int 300⟩, ⟨.int 1000, .int 700⟩]
    (by decide)

/-- The scale loop runs to completion whenever every declared scale
factor is an integer with nonzero tile extents, for any oracle: each scale
appends its grid and the per-tile log entries, in order. -/
theorem processScales_completes (width height tw th : ℤ)
    (oracle : TileRequest → Bool) (scales : List PyNum)
    (hsc : ∀ sc ∈ scales, ∃ k : ℤ, sc = .int k ∧ tw * k ≠ 0 ∧ th * k ≠ 0)
    (grids : List (ℤ × ℤ)) (log : List (TileRequest × Bool)) :
    processScales width height tw th oracle scales grids log =
      .completed
        (grids ++ scales.map (fun sc =>
          ComputeGridSize width height tw th sc.intVal))
        (log ++ (scales.flatMap (fun sc =>
          EnumerateScaleTiles width height tw th sc.intVal)).map
            (fun t => (t, oracle t))) := by
  revert hsc
  induction scales generalizing grids log with
  | nil =>
    intro _
    simp [processScales]
  | cons sc tl ih =>
    intro hsc
    obtain ⟨k, hsk, hk1, hk2⟩ := hsc sc (List.mem_cons_self sc tl)
    subst hsk
    have hcond : ¬(tw * k = 0 ∨ th * k = 0) := by
      push_neg
      exact ⟨hk1, hk2⟩
    show (if tw * k = 0 ∨ th * k = 0
        then ScriptResult.zeroDivisionError grids log
        else processScales width height tw th oracle tl
          (grids ++ [ComputeGridSize width height tw th k])
          (log ++ (EnumerateScaleTiles width height tw th k).map
            (fun t => (t, oracle t)))) = _
    rw [if_neg hcond,
      ih (grids ++ [ComputeGridSize width height tw th k])
        (log ++ (EnumerateScaleTiles width height tw th k).map
          (fun t => (t, oracle t)))
        (fun sc2 hm => hsc sc2 (List.mem_cons_of_mem _ hm))]
    simp [PyNum.intVal, List.append_assoc]

/-- C9: on a well-formed document (single profile, matching lengths,
integer dimensions, integer scale factors with nonzero tile extents), the
run always completes in one pass, whatever the pattern of per-tile server
failures: the log lists every tile of every scale exactly once, in order,
paired with the server verdict for it, and the list of attempted requests
does not depend on the verdicts. -/
theorem per_tile_errors_nonfatal (info : IIIFInfo)
    (oracle : TileRequest → Bool) (profile : TileProfile)
    (width height tw th : ℤ)
    (hp : info.tiles = [profile])
    (hlen : profile.scaleFactors.length = info.sizes.length)
    (hsel : selectMaxWidth info.sizes = some (.int width, .int height))
    (hwp : profile.width = .int tw) (hhp : profile.height = .int th)
    (hsc : ∀ sc ∈ profile.scaleFactors,
      ∃ k : ℤ, sc = .int k ∧ tw * k ≠ 0 ∧ th * k ≠ 0) :
    runScript info oracle = .completed
      (profile.scaleFactors.map (fun sc =>
        ComputeGridSize width height tw th sc.intVal))
      ((profile.scaleFactors.flatMap (fun sc =>
        EnumerateScaleTiles width height tw th sc.intVal)).map
          (fun t => (t, oracle t))) := by
  obtain ⟨tiles, sizes⟩ := info
  dsimp only at hp hlen hsel hsc ⊢
  subst hp
  rcases profile with ⟨pw, ph, psf⟩
  dsimp only at hlen hsel hsc hwp hhp ⊢
  subst hwp
  subst hhp
  simp only [runScript]
  rw [if_pos hlen, hsel]
  exact (processScales_completes width height tw th oracle psf hsc
    [] []).trans (by simp)

/-- A concrete well-formed document: one profile, two integer scale
factors, two sizes entries, integer dimensions. -/
def wellFormedInfo : IIIFInfo :=
  ⟨[⟨.int 512, .int 512, [.int 1, .int 2]⟩],
   [⟨.int 1000, .int 700⟩, ⟨.int 500, .int 350⟩]⟩

/-- Witness for C9 on the concrete well-formed document, with an oracle
that succeeds everywhere. -/
theorem per_tile_errors_nonfatal_witness :
    runScript wellFormedInfo (fun _ => true) = .completed
      (([.int 1, .int 2] : List PyNum).map (fun sc =>
        ComputeGridSize 1000 700 512 512 sc.intVal))
      ((([.int 1, .int 2] : List PyNum).flatMap (fun sc =>
        EnumerateScaleTiles 1000 700 512 512 sc.intVal)).map
          (fun t => (t, (fun _ => true) t))) :=
  per_tile_errors_nonfatal wellFormedInfo (fun _ => true)
    ⟨.int 512, .int 512, [.int 1, .int 2]⟩ 1000 700 512 512 rfl rfl
    (by decide) rfl rfl
    (by
      intro sc hm
      rcases List.mem_cons.mp hm with rfl | hm2
      · exact ⟨1, rfl, by decide, by decide⟩
      · rcases List.mem_cons.mp hm2 with rfl | hm3
        · exact ⟨2, rfl, by decide, by decide⟩
        · exact absurd hm3 (List.not_mem_nil sc))

/-- C10: the script asserts that tiles[0].scaleFactors and sizes have the
same length, and aborts on an assertion before computing any grid whenever
the lengths differ (a document whose tiles list is not a single profile
aborts on the preceding assert, likewise before any grid). -/
theorem scaleFactors_sizes_length_assert (info : IIIFInfo)
    (oracle : TileRequest → Bool) (profile : TileProfile)
    (hp : info.tiles.head? = some profile)
    (hlen : profile.scaleFactors.length ≠ info.sizes.length) :
    runScript info oracle = .assertFailed [] [] := by
  obtain ⟨tiles, sizes⟩ := info
  dsimp only at hp hlen
  rcases tiles with _ | ⟨p, _ | ⟨q, tl⟩⟩
  · simp at hp
  · have hpp : p = profile := by simpa using hp
    subst hpp
    simp only [runScript]
    rw [if_neg hlen]
  · rfl

/-- A concrete document whose scaleFactors list has two entries but whose
sizes list has one. -/
def mismatchedInfo : IIIFInfo :=
  ⟨[⟨.int 512, .int 512, [.int 1, .int 2]⟩], [⟨.int 1000, .int 1000⟩]⟩

/-- Witness for C10 on the concrete mismatched document. -/
theorem scaleFactors_sizes_length_assert_witness :
    runScript mismatchedInfo (fun _ => true) = .assertFailed [] [] :=
  scaleFactors_sizes_length_assert mismatchedInfo (fun _ => true)
    ⟨.int 512, .int 512, [.int 1, .int 2]⟩ rfl (by decide)

end IIIFTiles
